import Mathlib

/-!
A shallow embedding of `src/shard_manager.py` (module-level hash wrappers,
`ShardManager`, `ConsistentHashShardManager`) together with theorems checking
the natural-language specification of the repository against it.

Python exceptions are modelled with `Except`; Python's `%` on integers is
floor-mod with an explicit `ZeroDivisionError` on a zero modulus; the external
hash primitives (`mmh3.hash`, `mmh3.hash128`, the built-in `hash`) are opaque
deterministic functions collected in a `HashBackend` parameter.
-/

namespace Sharding

/-- Exceptions the Python module can raise. -/
inductive PyError where
  | typeError
  | zeroDivisionError
  | indexError
  | valueError (msg : String)
deriving DecidableEq, Repr

/-- A sharding key: `str`, `int`, or `bytes` (the `Union[str, int, bytes]`
annotations of `get_shard_id` and `migrate_key`). Byte values are `Nat`s. -/
inductive PyKey where
  | str (s : String)
  | int (n : Int)
  | bytes (b : List Nat)
deriving DecidableEq, Repr

/-- UTF-8 encoding of a Python `str` (`key.encode('utf-8')`), as byte values. -/
def utf8Bytes (s : String) : List Nat := s.toUTF8.data.toList.map (fun b => b.toNat)

/-- One lowercase hex digit, as Python's `bytes.hex()` produces. -/
def hexDigit (n : Nat) : Char :=
  if n < 10 then Char.ofNat (48 + n) else Char.ofNat (87 + n)

/-- Python's `bytes.hex()`: two lowercase hex digits per byte. -/
def bytesHex (bs : List Nat) : String :=
  String.mk (bs.foldr (fun b acc => hexDigit (b / 16 % 16) :: hexDigit (b % 16) :: acc) [])

/-- The external hashing environment of `shard_manager.py`: the `HAS_MMH3`
availability flag, `mmh3.hash`/`mmh3.hash128` with `signed=False` (acting on the
key's bytes; `mmh3` encodes `str` arguments as UTF-8 itself), and Python's
built-in `hash` on a string. All three live outside the repository; the module
treats them as opaque deterministic functions. -/
structure HashBackend where
  hasMmh3 : Bool
  mmh3Hash : List Nat → Int → Nat
  mmh3Hash128 : List Nat → Int → Nat
  pyHash : String → Int

/-- Bytes a key contributes to hashing: `str` → UTF-8 bytes, `bytes` → itself,
`int` → `TypeError` (`mmh3.hash` rejects ints, and the fallback's
`str(seed).encode() + key` raises `TypeError` on a `bytes + int` operand). -/
def encodeKey : PyKey → Except PyError (List Nat)
  | .str s => .ok (utf8Bytes s)
  | .bytes b => .ok b
  | .int _ => .error .typeError

/-- `MurmurHash.murmur3_32` on the key's bytes: `mmh3.hash(key, seed,
signed=False)` when `HAS_MMH3`, otherwise
`abs(hash((str(seed).encode() + key).hex())) & 0xffffffff`. -/
def murmur3_32_bytes (H : HashBackend) (kb : List Nat) (seed : Int) : Nat :=
  if H.hasMmh3 then H.mmh3Hash kb seed
  else (H.pyHash (bytesHex (utf8Bytes (toString seed) ++ kb))).natAbs &&& 0xffffffff

/-- `MurmurHash.murmur3_32(key, seed)`; `int` keys raise `TypeError` on both
paths (see `encodeKey`). -/
def murmur3_32 (H : HashBackend) (key : PyKey) (seed : Int) : Except PyError Nat :=
  (encodeKey key).map (fun kb => murmur3_32_bytes H kb seed)

/-- `MurmurHash.murmur3_128` on the key's bytes: `mmh3.hash128(key, seed,
signed=False) & 0x7fffffffffffffff` when `HAS_MMH3`, otherwise
`abs(hash((str(seed).encode() + key).hex())) & 0x7fffffffffffffff`. -/
def murmur3_128_bytes (H : HashBackend) (kb : List Nat) (seed : Int) : Nat :=
  if H.hasMmh3 then H.mmh3Hash128 kb seed &&& 0x7fffffffffffffff
  else (H.pyHash (bytesHex (utf8Bytes (toString seed) ++ kb))).natAbs &&& 0x7fffffffffffffff

/-- `MurmurHash.murmur3_128(key, seed)`. -/
def murmur3_128 (H : HashBackend) (key : PyKey) (seed : Int) : Except PyError Nat :=
  (encodeKey key).map (fun kb => murmur3_128_bytes H kb seed)

/-- The `ShardConfig` dataclass. -/
structure ShardConfig where
  total_shards : Int
  hash_seed : Int
  algorithm : String
deriving DecidableEq, Repr

/-- The hash function resolved by `ShardManager._get_hash_function`. -/
inductive HashAlg where
  | murmur3_32
  | murmur3_128
deriving DecidableEq, Repr

/-- `ShardManager._get_hash_function`: selects by the `algorithm` tag, raising
`ValueError` for an unrecognized tag. -/
def get_hash_function (config : ShardConfig) : Except PyError HashAlg :=
  if config.algorithm = "murmur3_32" then .ok .murmur3_32
  else if config.algorithm = "murmur3_128" then .ok .murmur3_128
  else .error (.valueError ("Unsupported hash algorithm: " ++ config.algorithm))

/-- Apply the resolved hash function (`self._hash_func`) to a key. -/
def applyHash (H : HashBackend) : HashAlg → PyKey → Int → Except PyError Nat
  | .murmur3_32 => murmur3_32 H
  | .murmur3_128 => murmur3_128 H

/-- The bytes-level hash selected by the tag (total on bytes). -/
def hashBytes (H : HashBackend) : HashAlg → List Nat → Int → Nat
  | .murmur3_32 => murmur3_32_bytes H
  | .murmur3_128 => murmur3_128_bytes H

/-- The state a constructed `ShardManager` holds: the config and the resolved
hash function. -/
structure ShardManager where
  config : ShardConfig
  hashAlg : HashAlg
deriving DecidableEq, Repr

/-- `ShardManager.__init__`: stores the config and resolves the hash function.
It performs no validation of `total_shards`. -/
def ShardManager.init (config : ShardConfig) : Except PyError ShardManager :=
  (get_hash_function config).map (fun alg => ⟨config, alg⟩)

/-- Python's `%` on integers: floor-mod, raising `ZeroDivisionError` on a zero
modulus. -/
def pyMod (a b : Int) : Except PyError Int :=
  if b = 0 then .error .zeroDivisionError else .ok (Int.fmod a b)

/-- Integer canonicalization `if isinstance(key, int): key = str(key)`
performed by both `get_shard_id` methods. -/
def canonicalize : PyKey → PyKey
  | .int n => .str (toString n)
  | k => k

/-- Bytes actually hashed by `get_shard_id` after integer canonicalization. -/
def canonBytes : PyKey → List Nat
  | .str s => utf8Bytes s
  | .int n => utf8Bytes (toString n)
  | .bytes b => b

/-- `ShardManager.get_shard_id`: canonicalize, hash, reduce modulo
`total_shards`. -/
def ShardManager.get_shard_id (H : HashBackend) (m : ShardManager) (key : PyKey) :
    Except PyError Int :=
  match applyHash H m.hashAlg (canonicalize key) m.config.hash_seed with
  | .error e => .error e
  | .ok hv => pyMod (hv : Int) m.config.total_shards

/-- `ShardManager.migrate_key`: the raw key (with no integer canonicalization)
is hashed for the old shard, then `get_shard_id` recomputes the new shard. -/
def ShardManager.migrate_key (H : HashBackend) (m : ShardManager) (key : PyKey)
    (old_total_shards : Int) : Except PyError (Int × Int × Bool) :=
  match applyHash H m.hashAlg key m.config.hash_seed with
  | .error e => .error e
  | .ok hv =>
    match pyMod (hv : Int) old_total_shards with
    | .error e => .error e
    | .ok old_shard_id =>
      match m.get_shard_id H key with
      | .error e => .error e
      | .ok new_shard_id => .ok (old_shard_id, new_shard_id, old_shard_id != new_shard_id)

/-- The unsorted `(hash_value, shard_id)` entries accumulated by
`_build_hash_ring` before the sort, hashing
`f"shard_{shard_id}_vnode_{vnode}"` for each shard id and vnode index. -/
def ringEntries (H : HashBackend) (alg : HashAlg) (config : ShardConfig)
    (virtual_nodes : Int) : List (Nat × Int) :=
  (List.range config.total_shards.toNat).flatMap (fun shard_id =>
    (List.range virtual_nodes.toNat).map (fun vnode =>
      (hashBytes H alg
        (utf8Bytes ("shard_" ++ toString shard_id ++ "_vnode_" ++ toString vnode))
        config.hash_seed,
       (shard_id : Int))))

/-- `ConsistentHashShardManager._build_hash_ring`: collect the entries, then
`ring.sort(key=lambda x: x[0])` — a stable ascending sort by hash value. -/
def build_hash_ring (H : HashBackend) (alg : HashAlg) (config : ShardConfig)
    (virtual_nodes : Int) : List (Nat × Int) :=
  (ringEntries H alg config virtual_nodes).mergeSort (fun a b => decide (a.1 ≤ b.1))

/-- The state a constructed `ConsistentHashShardManager` holds. -/
structure ConsistentHashShardManager where
  config : ShardConfig
  hashAlg : HashAlg
  virtual_nodes : Int
  ring : List (Nat × Int)
deriving DecidableEq, Repr

/-- `ConsistentHashShardManager.__init__`: `super().__init__(config)` then the
ring build. No validation of `total_shards` or `virtual_nodes`. -/
def ConsistentHashShardManager.init (H : HashBackend) (config : ShardConfig)
    (virtual_nodes : Int) : Except PyError ConsistentHashShardManager :=
  (ShardManager.init config).map (fun m =>
    ⟨m.config, m.hashAlg, virtual_nodes, build_hash_ring H m.hashAlg m.config virtual_nodes⟩)

/-- `ConsistentHashShardManager.get_shard_id`: canonicalize, hash, linear scan
for the first ring entry with `ring_hash >= hash_value`, else wrap around to
`self._ring[0][1]` (an `IndexError` on an empty ring). -/
def ConsistentHashShardManager.get_shard_id (H : HashBackend)
    (m : ConsistentHashShardManager) (key : PyKey) : Except PyError Int :=
  match applyHash H m.hashAlg (canonicalize key) m.config.hash_seed with
  | .error e => .error e
  | .ok hv =>
    match m.ring.find? (fun e => decide (hv ≤ e.1)) with
    | some e => .ok e.2
    | none =>
      match m.ring with
      | [] => .error .indexError
      | e :: _ => .ok e.2

/-- A concrete hashing environment used to instantiate theorems on concrete
inputs: `mmh3` present, with simple deterministic stand-ins for the external
primitives (a 33-multiplier fold reduced to 32 bits, a 131-multiplier fold for
the 128-bit variant, and a length-based built-in `hash`). -/
def sampleBackend : HashBackend :=
  ⟨true,
   fun kb s => (kb.foldl (fun a b => a * 33 + b) 5381 + s.natAbs) % 2 ^ 32,
   fun kb s => (kb.foldl (fun a b => a * 131 + b) 7 + s.natAbs) % 2 ^ 64,
   fun s => (s.length : Int) * 2654435761 + 97⟩

/-- A two-shard config with seed 0, for concrete instantiations. -/
def cfg2 : ShardConfig := ⟨2, 0, "murmur3_32"⟩

/-- The consistent manager `ConsistentHashShardManager(cfg2, virtual_nodes=1)`
built over `sampleBackend`. -/
def mgrC2 : ConsistentHashShardManager :=
  ⟨cfg2, .murmur3_32, 1, build_hash_ring sampleBackend .murmur3_32 cfg2 1⟩

/-- A four-shard config with seed 42. -/
def cfg4 : ShardConfig := ⟨4, 42, "murmur3_32"⟩

/-- The plain manager `ShardManager(cfg4)`. -/
def mgr4 : ShardManager := ⟨cfg4, .murmur3_32⟩

/-- A five-shard config with seed 42 (the spec's migration example). -/
def cfg5 : ShardConfig := ⟨5, 42, "murmur3_32"⟩

/-- The plain manager `ShardManager(cfg5)`. -/
def mgr5 : ShardManager := ⟨cfg5, .murmur3_32⟩

/-- A zero-shard config: the constructors accept it. -/
def cfg0 : ShardConfig := ⟨0, 0, "murmur3_32"⟩

/-- The plain manager `ShardManager(cfg0)` that construction produces. -/
def mgr0 : ShardManager := ⟨cfg0, .murmur3_32⟩

/-- The empty-ring manager `ConsistentHashShardManager(cfg0, 150)` that
construction produces. -/
def mgrC0 : ConsistentHashShardManager :=
  ⟨cfg0, .murmur3_32, 150, build_hash_ring sampleBackend .murmur3_32 cfg0 150⟩

/-- Whether an `Except` value is a success (no exception raised). -/
def isOk {ε α : Type _} : Except ε α → Bool
  | .ok _ => true
  | .error _ => false

instance {ε α : Type _} [DecidableEq ε] [DecidableEq α] : DecidableEq (Except ε α) :=
  fun x y =>
    match x, y with
    | .ok a, .ok b => if h : a = b then .isTrue (by rw [h]) else .isFalse (by simp [h])
    | .error a, .error b => if h : a = b then .isTrue (by rw [h]) else .isFalse (by simp [h])
    | .ok _, .error _ => .isFalse (by simp)
    | .error _, .ok _ => .isFalse (by simp)

/-! ## Reduction lemmas for the embedding -/

theorem encodeKey_canonicalize (k : PyKey) :
    encodeKey (canonicalize k) = .ok (canonBytes k) := by
  cases k <;> rfl

theorem applyHash_canonicalize (H : HashBackend) (alg : HashAlg) (k : PyKey) (seed : Int) :
    applyHash H alg (canonicalize k) seed = .ok (hashBytes H alg (canonBytes k) seed) := by
  cases alg <;> cases k <;> rfl

theorem applyHash_int (H : HashBackend) (alg : HashAlg) (n : Int) (seed : Int) :
    applyHash H alg (.int n) seed = .error .typeError := by
  cases alg <;> rfl

theorem applyHash_of_encode {k : PyKey} {kb : List Nat} (H : HashBackend) (alg : HashAlg)
    (seed : Int) (hk : encodeKey k = .ok kb) :
    applyHash H alg k seed = .ok (hashBytes H alg kb seed) := by
  cases alg <;> simp [applyHash, murmur3_32, murmur3_128, hk, hashBytes, Except.map]

theorem canonBytes_of_encode {k : PyKey} {kb : List Nat} (hk : encodeKey k = .ok kb) :
    canonBytes k = kb := by
  cases k with
  | str s => simpa [encodeKey, canonBytes] using hk
  | bytes b => simpa [encodeKey, canonBytes] using hk
  | int n => simp [encodeKey] at hk

theorem ShardManager.init_spec {config : ShardConfig} {m : ShardManager}
    (h : ShardManager.init config = .ok m) :
    m.config = config ∧ get_hash_function config = .ok m.hashAlg := by
  unfold ShardManager.init at h
  cases hg : get_hash_function config with
  | error e => rw [hg] at h; simp [Except.map] at h
  | ok alg =>
    rw [hg] at h
    simp [Except.map] at h
    subst h
    exact ⟨rfl, rfl⟩

theorem ShardManager.get_shard_id_eq (H : HashBackend) (m : ShardManager) (k : PyKey) :
    m.get_shard_id H k =
      pyMod ((hashBytes H m.hashAlg (canonBytes k) m.config.hash_seed : Nat) : Int)
        m.config.total_shards := by
  unfold ShardManager.get_shard_id
  rw [applyHash_canonicalize]

theorem ConsistentHashShardManager.init_ring_spec {H : HashBackend} {config : ShardConfig}
    {vn : Int} {m : ConsistentHashShardManager}
    (h : ConsistentHashShardManager.init H config vn = .ok m) :
    m.config = config ∧ get_hash_function config = .ok m.hashAlg ∧
      m.virtual_nodes = vn ∧ m.ring = build_hash_ring H m.hashAlg config vn := by
  unfold ConsistentHashShardManager.init ShardManager.init at h
  cases hg : get_hash_function config with
  | error e => rw [hg] at h; simp [Except.map] at h
  | ok alg =>
    rw [hg] at h
    simp [Except.map] at h
    subst h
    exact ⟨rfl, rfl, rfl, rfl⟩

theorem ConsistentHashShardManager.get_shard_id_find_some {H : HashBackend}
    {m : ConsistentHashShardManager} {k : PyKey} {hv : Nat} {e : Nat × Int}
    (hhv : applyHash H m.hashAlg (canonicalize k) m.config.hash_seed = .ok hv)
    (hf : m.ring.find? (fun x => decide (hv ≤ x.1)) = some e) :
    m.get_shard_id H k = .ok e.2 := by
  unfold ConsistentHashShardManager.get_shard_id
  rw [hhv]
  show (match m.ring.find? (fun x => decide (hv ≤ x.1)) with
        | some e => Except.ok e.2
        | none =>
          match m.ring with
          | [] => Except.error PyError.indexError
          | e :: _ => Except.ok e.2) = Except.ok e.2
  rw [hf]

theorem ConsistentHashShardManager.get_shard_id_wrap {H : HashBackend}
    {m : ConsistentHashShardManager} {k : PyKey} {hv : Nat} {a : Nat × Int} {t : List (Nat × Int)}
    (hhv : applyHash H m.hashAlg (canonicalize k) m.config.hash_seed = .ok hv)
    (hf : m.ring.find? (fun x => decide (hv ≤ x.1)) = none)
    (hr : m.ring = a :: t) :
    m.get_shard_id H k = .ok a.2 := by
  unfold ConsistentHashShardManager.get_shard_id
  rw [hhv]
  show (match m.ring.find? (fun x => decide (hv ≤ x.1)) with
        | some e => Except.ok e.2
        | none =>
          match m.ring with
          | [] => Except.error PyError.indexError
          | e :: _ => Except.ok e.2) = Except.ok a.2
  rw [hf, hr]

theorem ConsistentHashShardManager.get_shard_id_empty {H : HashBackend}
    {m : ConsistentHashShardManager} {k : PyKey} {hv : Nat}
    (hhv : applyHash H m.hashAlg (canonicalize k) m.config.hash_seed = .ok hv)
    (hr : m.ring = []) :
    m.get_shard_id H k = .error .indexError := by
  unfold ConsistentHashShardManager.get_shard_id
  rw [hhv]
  show (match m.ring.find? (fun x => decide (hv ≤ x.1)) with
        | some e => Except.ok e.2
        | none =>
          match m.ring with
          | [] => Except.error PyError.indexError
          | e :: _ => Except.ok e.2) = Except.error PyError.indexError
  rw [hr]
  rfl

theorem ringEntries_length (H : HashBackend) (alg : HashAlg) (config : ShardConfig)
    (vn : Int) :
    (ringEntries H alg config vn).length = config.total_shards.toNat * vn.toNat := by
  simp [ringEntries, List.flatMap, List.map_map, Function.comp_def, List.map_const',
    List.sum_replicate, smul_eq_mul]

theorem build_hash_ring_length (H : HashBackend) (alg : HashAlg) (config : ShardConfig)
    (vn : Int) :
    (build_hash_ring H alg config vn).length = config.total_shards.toNat * vn.toNat := by
  simp [build_hash_ring, ringEntries_length]

theorem mem_ringEntries {H : HashBackend} {alg : HashAlg} {config : ShardConfig}
    {vn : Int} {e : Nat × Int} :
    e ∈ ringEntries H alg config vn ↔
      ∃ i j, i < config.total_shards.toNat ∧ j < vn.toNat ∧
        e = (hashBytes H alg
              (utf8Bytes ("shard_" ++ toString i ++ "_vnode_" ++ toString j))
              config.hash_seed, (i : Int)) := by
  simp only [ringEntries, List.mem_flatMap, List.mem_map, List.mem_range]
  constructor
  · rintro ⟨i, hi, j, hj, rfl⟩
    exact ⟨i, j, hi, hj, rfl⟩
  · rintro ⟨i, j, hi, hj, rfl⟩
    exact ⟨i, hi, j, hj, rfl⟩

theorem mem_build_hash_ring {H : HashBackend} {alg : HashAlg} {config : ShardConfig}
    {vn : Int} {e : Nat × Int} :
    e ∈ build_hash_ring H alg config vn ↔ e ∈ ringEntries H alg config vn := by
  simp [build_hash_ring]

theorem build_hash_ring_sorted (H : HashBackend) (alg : HashAlg) (config : ShardConfig)
    (vn : Int) :
    List.Pairwise (fun a b : Nat × Int => a.1 ≤ b.1) (build_hash_ring H alg config vn) := by
  have h := @List.sorted_mergeSort (Nat × Int) (fun a b => decide (a.1 ≤ b.1))
    (fun a b c hab hbc => by
      simp only [decide_eq_true_eq] at *
      omega)
    (fun a b => by
      simp only [Bool.or_eq_true, decide_eq_true_eq]
      omega)
    (ringEntries H alg config vn)
  exact h.imp (fun hab => by simpa using hab)

theorem find?_eq_some_get_of_first {α : Type _} (p : α → Bool) (l : List α) (i : Nat)
    (hi : i < l.length) (hp : p (l.get ⟨i, hi⟩) = true)
    (hlt : ∀ j (hj : j < i), p (l.get ⟨j, Nat.lt_trans hj hi⟩) = false) :
    l.find? p = some (l.get ⟨i, hi⟩) := by
  induction l generalizing i with
  | nil => exact absurd hi (Nat.not_lt_zero i)
  | cons a t ih =>
    cases i with
    | zero => exact List.find?_cons_of_pos t hp
    | succ i =>
      have ha : p a = false := hlt 0 (Nat.succ_pos i)
      rw [List.find?_cons_of_neg t (by simp [ha])]
      exact ih i (Nat.lt_of_succ_lt_succ hi) hp
        (fun j hj => hlt (j + 1) (Nat.succ_lt_succ hj))

theorem pyMod_ok {a b : Int} (hb : b ≠ 0) : pyMod a b = .ok (a.fmod b) := by
  unfold pyMod
  rw [if_neg hb]

theorem pyMod_zero (a : Int) : pyMod a 0 = .error .zeroDivisionError := rfl

/-! ## Claim theorems -/

/-- C2: for every key (string, integer, or bytes) and every `ShardManager`
with `total_shards ≥ 1`, `get_shard_id(k)` equals the hash of the
canonicalized key (under the configured seed) reduced modulo `total_shards`
exactly, where the hash function is the one selected by the config's
`algorithm` tag. -/
theorem C2_modulo_correctness (H : HashBackend) (config : ShardConfig) (m : ShardManager)
    (hinit : ShardManager.init config = .ok m) (hts : 1 ≤ config.total_shards) (k : PyKey) :
    get_hash_function config = .ok m.hashAlg ∧
    m.get_shard_id H k =
      .ok (((hashBytes H m.hashAlg (canonBytes k) config.hash_seed : Nat) : Int)
        % config.total_shards) := by
  obtain ⟨hc, ha⟩ := ShardManager.init_spec hinit
  refine ⟨ha, ?_⟩
  rw [ShardManager.get_shard_id_eq, hc, pyMod_ok (by omega),
    Int.fmod_eq_emod _ (by omega)]

/-- C2 witness: on `sampleBackend`, `ShardManager(cfg4)` routes `"user_001"`
to shard 2, which is its hash value modulo 4. -/
theorem C2_modulo_correctness_witness :
    ShardManager.get_shard_id sampleBackend mgr4 (.str "user_001") = .ok 2 := by
  rw [(C2_modulo_correctness sampleBackend cfg4 mgr4 rfl (by decide) (.str "user_001")).2]
  decide

/-- C3 counterexample: `ShardManager(ShardConfig(total_shards=0))` constructs
successfully (the claim says construction must raise). -/
theorem C3_counterexample_construction_succeeds :
    ShardManager.init cfg0 = .ok mgr0 := rfl

/-- C3 amended: `ShardManager.__init__` performs no `total_shards` validation —
any config with a recognized algorithm tag constructs successfully, and with
`total_shards = 0` the failure surfaces only at a routing call, which raises
`ZeroDivisionError` (not an `InvalidConfiguration` error at construction). -/
theorem C3_amended_no_construction_validation (H : HashBackend) (config : ShardConfig)
    (halg : config.algorithm = "murmur3_32" ∨ config.algorithm = "murmur3_128") :
    isOk (ShardManager.init config) = true ∧
    ∀ m, ShardManager.init config = .ok m → config.total_shards = 0 →
      ∀ k, m.get_shard_id H k = .error .zeroDivisionError := by
  constructor
  · unfold ShardManager.init get_hash_function
    rcases halg with h | h <;> simp [h, Except.map, isOk]
  · intro m hm h0 k
    obtain ⟨hc, -⟩ := ShardManager.init_spec hm
    rw [ShardManager.get_shard_id_eq, hc, h0]
    rfl

/-- C3 amended witness: with `total_shards = 0` the constructor succeeds and a
routing call raises `ZeroDivisionError`. -/
theorem C3_amended_witness :
    isOk (ShardManager.init cfg0) = true ∧
    ShardManager.get_shard_id sampleBackend mgr0 (.str "user_001") =
      .error .zeroDivisionError :=
  ⟨(C3_amended_no_construction_validation sampleBackend cfg0 (Or.inl rfl)).1,
   (C3_amended_no_construction_validation sampleBackend cfg0 (Or.inl rfl)).2
     mgr0 rfl rfl (.str "user_001")⟩

/-- C4 counterexample: `ConsistentHashShardManager(ShardConfig(total_shards=0),
virtual_nodes=150)` constructs successfully with an empty ring (the claim says
construction must fail). -/
theorem C4_counterexample_construction_succeeds :
    ConsistentHashShardManager.init sampleBackend cfg0 150 = .ok mgrC0 ∧ mgrC0.ring = [] :=
  ⟨rfl, by simp [mgrC0, build_hash_ring, ringEntries, cfg0]⟩

/-- C4 amended: a `ConsistentHashShardManager` whose ring would be empty
(`total_shards = 0` or `virtual_nodes = 0`) constructs successfully; the ring
is empty and every lookup raises `IndexError` (from `self._ring[0]`), so the
failure surfaces at lookup time, not at construction. -/
theorem C4_amended_empty_ring_fails_at_lookup (H : HashBackend) (config : ShardConfig)
    (vn : Int)
    (halg : config.algorithm = "murmur3_32" ∨ config.algorithm = "murmur3_128")
    (h0 : config.total_shards = 0 ∨ vn = 0) :
    isOk (ConsistentHashShardManager.init H config vn) = true ∧
    ∀ m, ConsistentHashShardManager.init H config vn = .ok m →
      m.ring = [] ∧ ∀ k, m.get_shard_id H k = .error .indexError := by
  constructor
  · unfold ConsistentHashShardManager.init ShardManager.init get_hash_function
    rcases halg with h | h <;> simp [h, Except.map, isOk]
  · intro m hm
    obtain ⟨hc, -, -, hr⟩ := ConsistentHashShardManager.init_ring_spec hm
    have hlen : m.ring.length = 0 := by
      rw [hr, build_hash_ring_length]
      rcases h0 with h | h <;> simp [h]
    have hempty : m.ring = [] := List.eq_nil_of_length_eq_zero hlen
    exact ⟨hempty, fun k =>
      ConsistentHashShardManager.get_shard_id_empty
        (applyHash_canonicalize H m.hashAlg k m.config.hash_seed) hempty⟩

/-- C4 amended witness: the zero-shard consistent manager constructs, has an
empty ring, and its lookup raises `IndexError`. -/
theorem C4_amended_witness :
    isOk (ConsistentHashShardManager.init sampleBackend cfg0 150) = true ∧
    ConsistentHashShardManager.get_shard_id sampleBackend mgrC0 (.str "user_001") =
      .error .indexError :=
  ⟨(C4_amended_empty_ring_fails_at_lookup sampleBackend cfg0 150
      (Or.inl rfl) (Or.inl rfl)).1,
   ((C4_amended_empty_ring_fails_at_lookup sampleBackend cfg0 150
      (Or.inl rfl) (Or.inl rfl)).2 mgrC0 rfl).2 (.str "user_001")⟩

/-- C6: routing an integer key yields the same shard id as routing its decimal
string representation, on both `ShardManager` and `ConsistentHashShardManager`
(with any configuration). -/
theorem C6_integer_canonicalization (H : HashBackend) (m : ShardManager)
    (mc : ConsistentHashShardManager) (n : Int) :
    m.get_shard_id H (.int n) = m.get_shard_id H (.str (toString n)) ∧
    mc.get_shard_id H (.int n) = mc.get_shard_id H (.str (toString n)) :=
  ⟨rfl, rfl⟩

/-- C10: `migrate_key` does not canonicalize integer keys — the raw integer
reaches the hash function and raises `TypeError` — whereas the same key as a
decimal string succeeds (given valid shard counts). -/
theorem C10_migrate_key_rejects_int (H : HashBackend) (m : ShardManager) (n old : Int) :
    m.migrate_key H (.int n) old = .error .typeError ∧
    (1 ≤ m.config.total_shards → 1 ≤ old →
      isOk (m.migrate_key H (.str (toString n)) old) = true) := by
  constructor
  · unfold ShardManager.migrate_key
    rw [applyHash_int]
  · intro hts hold
    unfold ShardManager.migrate_key
    rw [applyHash_of_encode H m.hashAlg m.config.hash_seed
      (rfl : encodeKey (.str (toString n)) = .ok (utf8Bytes (toString n)))]
    show isOk
      (match pyMod ((hashBytes H m.hashAlg (utf8Bytes (toString n))
            m.config.hash_seed : Nat) : Int) old with
        | .error e => Except.error e
        | .ok old_shard_id =>
          match m.get_shard_id H (.str (toString n)) with
          | .error e => Except.error e
          | .ok new_shard_id =>
            Except.ok (old_shard_id, new_shard_id, old_shard_id != new_shard_id)) = true
    rw [pyMod_ok (by omega), ShardManager.get_shard_id_eq, pyMod_ok (by omega)]
    rfl

/-- C9: both hash variants stay in their declared ranges on every path. The
32-bit variant returns values in `[0, 2^32 − 1]` — on the fallback path by the
`& 0xffffffff` mask, and on the mmh3-backed path assuming the library's
documented unsigned 32-bit output (`signed=False`), stated here as the
hypothesis `h32` since `mmh3` is outside the repository. The 128-bit variant
returns values in `[0, 2^63 − 1]` on both paths by the
`& 0x7fffffffffffffff` mask. -/
theorem C9_hash_output_ranges (H : HashBackend)
    (h32 : ∀ kb s, H.mmh3Hash kb s < 2 ^ 32) :
    (∀ k s r, murmur3_32 H k s = .ok r → r < 2 ^ 32) ∧
    (∀ k s r, murmur3_128 H k s = .ok r → r < 2 ^ 63) := by
  constructor
  · intro k s r hr
    unfold murmur3_32 at hr
    cases hk : encodeKey k with
    | error e => rw [hk] at hr; simp [Except.map] at hr
    | ok kb =>
      rw [hk] at hr
      simp only [Except.map, Except.ok.injEq] at hr
      subst hr
      unfold murmur3_32_bytes
      split
      · exact h32 kb s
      · exact Nat.lt_of_le_of_lt Nat.and_le_right (by norm_num)
  · intro k s r hr
    unfold murmur3_128 at hr
    cases hk : encodeKey k with
    | error e => rw [hk] at hr; simp [Except.map] at hr
    | ok kb =>
      rw [hk] at hr
      simp only [Except.map, Except.ok.injEq] at hr
      subst hr
      unfold murmur3_128_bytes
      split
      · exact Nat.lt_of_le_of_lt Nat.and_le_right (by norm_num)
      · exact Nat.lt_of_le_of_lt Nat.and_le_right (by norm_num)

/-- C9 witness: concrete evaluations of both variants on `sampleBackend`
(whose `mmh3Hash` satisfies the 32-bit contract by its final `% 2^32`), with
the range bounds obtained from the range theorem. -/
theorem C9_hash_output_ranges_witness :
    murmur3_32 sampleBackend (.bytes [1, 2, 3]) 5 = .ok 193378160 ∧
    (193378160 : Nat) < 2 ^ 32 ∧
    murmur3_128 sampleBackend (.bytes [1, 2, 3]) 5 = .ok 15754068 ∧
    (15754068 : Nat) < 2 ^ 63 :=
  ⟨by decide,
   (C9_hash_output_ranges sampleBackend
      (fun kb s => Nat.mod_lt _ (by norm_num))).1 (.bytes [1, 2, 3]) 5 193378160 (by decide),
   by decide,
   (C9_hash_output_ranges sampleBackend
      (fun kb s => Nat.mod_lt _ (by norm_num))).2 (.bytes [1, 2, 3]) 5 15754068 (by decide)⟩

/-- Reduction of `migrate_key` on a hashable (string or bytes) key with
nonzero old and current shard counts. -/
theorem ShardManager.migrate_key_ok (H : HashBackend) {m : ShardManager} {k : PyKey}
    {kb : List Nat} {old : Int} (hk : encodeKey k = .ok kb)
    (hts : m.config.total_shards ≠ 0) (hold : old ≠ 0) :
    m.migrate_key H k old =
      .ok (((hashBytes H m.hashAlg kb m.config.hash_seed : Nat) : Int).fmod old,
        ((hashBytes H m.hashAlg kb m.config.hash_seed : Nat) : Int).fmod
          m.config.total_shards,
        (((hashBytes H m.hashAlg kb m.config.hash_seed : Nat) : Int).fmod old
          != ((hashBytes H m.hashAlg kb m.config.hash_seed : Nat) : Int).fmod
            m.config.total_shards)) := by
  unfold ShardManager.migrate_key
  rw [applyHash_of_encode H m.hashAlg m.config.hash_seed hk]
  show (match pyMod ((hashBytes H m.hashAlg kb m.config.hash_seed : Nat) : Int) old with
        | .error e => Except.error e
        | .ok old_shard_id =>
          match m.get_shard_id H k with
          | .error e => Except.error e
          | .ok new_shard_id =>
            Except.ok (old_shard_id, new_shard_id, old_shard_id != new_shard_id)) = _
  rw [pyMod_ok hold]
  show (match m.get_shard_id H k with
        | .error e => Except.error e
        | .ok new_shard_id =>
          Except.ok (((hashBytes H m.hashAlg kb m.config.hash_seed : Nat) : Int).fmod old,
            new_shard_id,
            ((hashBytes H m.hashAlg kb m.config.hash_seed : Nat) : Int).fmod old
              != new_shard_id)) = _
  rw [ShardManager.get_shard_id_eq, canonBytes_of_encode hk, pyMod_ok hts]

/-- C7 counterexample: at the integer key 123 (with `total_shards = 5`,
`old_total_shards = 3`, seed 42), `migrate_key` raises `TypeError` instead of
returning the claimed triple, because the raw integer reaches the hash
function. -/
theorem C7_counterexample_int_key :
    ShardManager.init cfg5 = .ok mgr5 ∧
    ShardManager.migrate_key sampleBackend mgr5 (.int 123) 3 = .error .typeError := by
  refine ⟨rfl, ?_⟩
  unfold ShardManager.migrate_key
  rw [applyHash_int]

/-- C7 amended: for every string or bytes key (integer keys raise `TypeError`
instead, see C10), `migrate_key(k, old_total_shards)` returns the triple
`(hash(k, seed) mod old_total_shards, hash(k, seed) mod total_shards, flag)`
with the same hash seed on both sides, where `flag` is true exactly when the
two shard ids differ. -/
theorem C7_amended_migration_impact (H : HashBackend) (config : ShardConfig)
    (m : ShardManager) (hinit : ShardManager.init config = .ok m)
    (hts : 1 ≤ config.total_shards) (old : Int) (hold : 1 ≤ old)
    (k : PyKey) (kb : List Nat) (hk : encodeKey k = .ok kb) :
    ∃ old_id new_id flag,
      m.migrate_key H k old = .ok (old_id, new_id, flag) ∧
      old_id = ((hashBytes H m.hashAlg kb config.hash_seed : Nat) : Int) % old ∧
      new_id = ((hashBytes H m.hashAlg kb config.hash_seed : Nat) : Int)
        % config.total_shards ∧
      (flag = true ↔ old_id ≠ new_id) := by
  obtain ⟨hc, -⟩ := ShardManager.init_spec hinit
  have hm := ShardManager.migrate_key_ok H hk
    (by rw [hc]; omega) (show old ≠ 0 by omega)
  rw [hc, Int.fmod_eq_emod _ (show (0 : Int) ≤ old by omega),
    Int.fmod_eq_emod _ (show (0 : Int) ≤ config.total_shards by omega)] at hm
  exact ⟨_, _, _, hm, rfl, rfl, bne_iff_ne⟩

/-- C7 amended witness: migrating the string key `"user_001"` from 3 to 5
shards succeeds and returns a triple. -/
theorem C7_amended_migration_impact_witness :
    isOk (ShardManager.migrate_key sampleBackend mgr5 (.str "user_001") 3) = true := by
  obtain ⟨o, n, f, hm, -, -, -⟩ := C7_amended_migration_impact sampleBackend cfg5 mgr5
    rfl (by decide) 3 (by decide) (.str "user_001") (utf8Bytes "user_001") rfl
  rw [hm]
  rfl

/-- C10 witness: on `ShardManager(cfg4)`, migrating the integer key 7 raises
`TypeError`, while the string key `"7"` succeeds. -/
theorem C10_migrate_key_rejects_int_witness :
    ShardManager.migrate_key sampleBackend mgr4 (.int 7) 3 = .error .typeError ∧
    isOk (ShardManager.migrate_key sampleBackend mgr4 (.str "7") 3) = true :=
  ⟨(C10_migrate_key_rejects_int sampleBackend mgr4 7 3).1,
   (C10_migrate_key_rejects_int sampleBackend mgr4 7 3).2 (by decide) (by decide)⟩

theorem mgrC2_ring_eq : mgrC2.ring = [(2208012016, 0), (4162324465, 1)] := by
  show build_hash_ring sampleBackend .murmur3_32 cfg2 1 = _
  unfold build_hash_ring
  have he : ringEntries sampleBackend .murmur3_32 cfg2 1 =
      [(2208012016, 0), (4162324465, 1)] := by decide
  rw [he]
  exact List.mergeSort_of_sorted (by simp)

/-- C5: on a validly constructed `ConsistentHashShardManager`
(`total_shards ≥ 1`, `virtual_nodes ≥ 1`), `get_shard_id` succeeds for every
possible key — string, integer, or bytes, wraparound included — and its result
is an integer in `[0, total_shards)`. -/
theorem C5_ring_totality (H : HashBackend) (config : ShardConfig) (vn : Int)
    (m : ConsistentHashShardManager)
    (hinit : ConsistentHashShardManager.init H config vn = .ok m)
    (hts : 1 ≤ config.total_shards) (hvn : 1 ≤ vn) (k : PyKey) :
    ∃ r, m.get_shard_id H k = .ok r ∧ 0 ≤ r ∧ r < config.total_shards := by
  obtain ⟨hc, -, -, hr⟩ := ConsistentHashShardManager.init_ring_spec hinit
  have hhv := applyHash_canonicalize H m.hashAlg k m.config.hash_seed
  have hmem : ∀ e : Nat × Int, e ∈ m.ring → 0 ≤ e.2 ∧ e.2 < config.total_shards := by
    intro e he
    rw [hr, mem_build_hash_ring, mem_ringEntries] at he
    obtain ⟨i, j, hi, hj, rfl⟩ := he
    refine ⟨Int.ofNat_nonneg i, ?_⟩
    omega
  cases hf : m.ring.find?
      (fun x => decide (hashBytes H m.hashAlg (canonBytes k) m.config.hash_seed ≤ x.1)) with
  | some e =>
    exact ⟨e.2, ConsistentHashShardManager.get_shard_id_find_some hhv hf,
      hmem e (List.mem_of_find?_eq_some hf)⟩
  | none =>
    have hlen : m.ring.length ≠ 0 := by
      rw [hr, build_hash_ring_length]
      have h1 : 1 ≤ config.total_shards.toNat := by omega
      have h2 : 1 ≤ vn.toNat := by omega
      have := Nat.mul_pos h1 h2
      omega
    cases hring : m.ring with
    | nil => rw [hring] at hlen; simp at hlen
    | cons a t =>
      refine ⟨a.2, ConsistentHashShardManager.get_shard_id_wrap hhv hf hring, ?_⟩
      exact hmem a (by rw [hring]; exact List.mem_cons_self a t)

/-- C5 witness: a lookup on the concrete two-shard, one-vnode ring succeeds. -/
theorem C5_ring_totality_witness :
    isOk (ConsistentHashShardManager.get_shard_id sampleBackend mgrC2 (.str "user_001"))
      = true := by
  obtain ⟨r, hrr, -, -⟩ := C5_ring_totality sampleBackend cfg2 1 mgrC2 rfl
    (by decide) (by decide) (.str "user_001")
  rw [hrr]
  rfl

/-- C8: the ring built at construction has exactly
`total_shards × virtual_nodes` entries, is sorted ascending by hash value, and
its entries are precisely the pairs
`(hash("shard_<i>_vnode_<j>", seed), i)` for `i < total_shards`,
`j < virtual_nodes`. (In this functional model the ring is a value fixed at
construction; lookups cannot mutate it.) -/
theorem C8_ring_construction (H : HashBackend) (config : ShardConfig) (vn : Int)
    (m : ConsistentHashShardManager)
    (hinit : ConsistentHashShardManager.init H config vn = .ok m)
    (hts : 1 ≤ config.total_shards) (hvn : 1 ≤ vn) :
    m.ring.length = config.total_shards.toNat * vn.toNat ∧
    List.Pairwise (fun a b : Nat × Int => a.1 ≤ b.1) m.ring ∧
    ∀ e : Nat × Int, e ∈ m.ring ↔
      ∃ i j, i < config.total_shards.toNat ∧ j < vn.toNat ∧
        e = (hashBytes H m.hashAlg
              (utf8Bytes ("shard_" ++ toString i ++ "_vnode_" ++ toString j))
              config.hash_seed, (i : Int)) := by
  obtain ⟨hc, -, -, hr⟩ := ConsistentHashShardManager.init_ring_spec hinit
  subst hc
  refine ⟨?_, ?_, ?_⟩
  · rw [hr, build_hash_ring_length]
  · rw [hr]
    exact build_hash_ring_sorted H m.hashAlg m.config vn
  · intro e
    rw [hr, mem_build_hash_ring, mem_ringEntries]

/-- C8 witness: the concrete two-shard, one-vnode ring has `2 × 1` entries and
is sorted ascending by hash value. -/
theorem C8_ring_construction_witness :
    mgrC2.ring.length = cfg2.total_shards.toNat * (1 : Int).toNat ∧
    List.Pairwise (fun a b : Nat × Int => a.1 ≤ b.1) mgrC2.ring :=
  ⟨(C8_ring_construction sampleBackend cfg2 1 mgrC2 rfl (by decide) (by decide)).1,
   (C8_ring_construction sampleBackend cfg2 1 mgrC2 rfl (by decide) (by decide)).2.1⟩

/-- C1: on a validly constructed ring, `get_shard_id(k)` returns the shard id
of the first ring entry (in the sorted order) whose hash value is `≥` the
key's hash; and when the key's hash exceeds every entry's hash value, it
returns the shard id of the first entry of the sorted ring, which has the
smallest hash value. "First entry with hash ≥ h" is phrased by splitting the
ring as `pre ++ e :: suf` with every entry of `pre` below `h`. -/
theorem C1_successor_with_wraparound (H : HashBackend) (config : ShardConfig) (vn : Int)
    (m : ConsistentHashShardManager)
    (hinit : ConsistentHashShardManager.init H config vn = .ok m)
    (hts : 1 ≤ config.total_shards) (hvn : 1 ≤ vn) (k : PyKey) (h : Nat)
    (hh : h = hashBytes H m.hashAlg (canonBytes k) config.hash_seed) :
    m.ring ≠ [] ∧
    (∀ pre e suf, m.ring = pre ++ e :: suf → (∀ x ∈ pre, x.1 < h) → h ≤ e.1 →
      m.get_shard_id H k = .ok e.2) ∧
    ((∀ x ∈ m.ring, x.1 < h) → ∀ a t, m.ring = a :: t →
      m.get_shard_id H k = .ok a.2 ∧ ∀ x ∈ m.ring, a.1 ≤ x.1) := by
  obtain ⟨hc, -, -, hr⟩ := ConsistentHashShardManager.init_ring_spec hinit
  have hhv : applyHash H m.hashAlg (canonicalize k) m.config.hash_seed = .ok h := by
    rw [applyHash_canonicalize, hc, hh]
  refine ⟨?_, ?_, ?_⟩
  · have hlen : m.ring.length ≠ 0 := by
      rw [hr, build_hash_ring_length]
      have h1 : 1 ≤ config.total_shards.toNat := by omega
      have h2 : 1 ≤ vn.toNat := by omega
      have := Nat.mul_pos h1 h2
      omega
    intro hnil
    rw [hnil] at hlen
    simp at hlen
  · intro pre e suf hsplit hpre hle
    have hf : m.ring.find? (fun x => decide (h ≤ x.1)) = some e := by
      rw [hsplit, List.find?_append,
        List.find?_eq_none.mpr (fun x hx => by
          simp only [decide_eq_true_eq]
          exact not_le.mpr (hpre x hx)),
        List.find?_cons_of_pos suf (decide_eq_true hle)]
      rfl
    exact ConsistentHashShardManager.get_shard_id_find_some hhv hf
  · intro hall a t hat
    have hf : m.ring.find? (fun x => decide (h ≤ x.1)) = none :=
      List.find?_eq_none.mpr (fun x hx => by
        simp only [decide_eq_true_eq]
        exact not_le.mpr (hall x hx))
    refine ⟨ConsistentHashShardManager.get_shard_id_wrap hhv hf hat, ?_⟩
    have hs : List.Pairwise (fun a b : Nat × Int => a.1 ≤ b.1) m.ring := by
      rw [hr]
      exact build_hash_ring_sorted H m.hashAlg config vn
    rw [hat] at hs
    rw [hat]
    intro x hx
    rcases List.mem_cons.mp hx with rfl | hx
    · exact le_refl _
    · exact (List.pairwise_cons.mp hs).1 x hx

/-- C1 witness: on the concrete two-shard ring, the key `bytes([])` hashes to
5381, below the first entry's hash, so the successor search returns that
entry's shard id 0. -/
theorem C1_successor_with_wraparound_witness :
    ConsistentHashShardManager.get_shard_id sampleBackend mgrC2 (.bytes []) = .ok 0 :=
  (C1_successor_with_wraparound sampleBackend cfg2 1 mgrC2 rfl (by decide) (by decide)
      (.bytes []) 5381 (by decide)).2.1
    [] (2208012016, 0) [(4162324465, 1)] mgrC2_ring_eq (by simp) (by decide)

end Sharding
